import Mathlib

/-!
Verification development for the Claude-Flow v3 distributed orchestration
core, embedded from the SPARC pseudocode (vector database engine, swarm
orchestration, memory synchronization, retry policy).  Definitions follow the
pseudocode; sub-operations whose bodies do not appear in the corpus (only
their call sites, configuration, or tests) carry a doc comment starting
"Modelled from the spec:".
-/

namespace Flow

/-- Component value of a stored vector.  IEEE-754 floats are modelled
discretely: a finite value (carried as an integer sample) or one of the
non-finite values NaN, positive infinity, negative infinity.  The properties
proved below depend only on finiteness checks, ordering and counting, never on
real arithmetic, so the discrete sample is adequate. -/
inductive FloatVal where
  | finite (x : Int)
  | nan
  | posInf
  | negInf
deriving DecidableEq, Repr

def FloatVal.isFinite : FloatVal → Bool
  | .finite _ => true
  | _ => false

def FloatVal.toInt : FloatVal → Int
  | .finite x => x
  | _ => 0

/-- Association-list lookup used for the id maps and vector clocks. -/
def alookup {α : Type} (l : List (Nat × α)) (k : Nat) : Option α :=
  (l.find? (fun p => p.1 == k)).map (fun p => p.2)

/-! ## Vector database engine -/

structure DbConfig where
  dimensions : Nat
  m : Option Nat
  ef_construction : Option Nat
  ef_search : Option Nat
  max_elements : Option Nat
deriving DecidableEq, Repr

structure HnswConfig where
  m : Nat
  ef_construction : Nat
  ef_search : Nat
  max_elements : Nat
deriving DecidableEq, Repr

inductive DbError where
  | invalidConfig
  | dimensionMismatch (expected got : Nat)
  | invalidValue
deriving DecidableEq, Repr

structure StoredEntry where
  vector : List FloatVal
  metadata : List (String × String)
deriving DecidableEq, Repr

/-- The vector database state: configuration, HNSW parameters, the index's
point list (position = HNSW index), the id-keyed storage, and the two id maps
kept in lockstep by `insert`.  The optional quantizer is omitted: it is off in
the default configuration and no property below touches compression. -/
structure VectorDB where
  config : DbConfig
  hnsw : HnswConfig
  points : List (List FloatVal)
  storage : List (Nat × StoredEntry)
  idx_to_id : List (Nat × Nat)
  id_to_idx : List (Nat × Nat)
  next_id : Nat
deriving DecidableEq, Repr

def MAX_DIMENSIONS : Nat := 65536

/-- Modelled from the spec: the body of the HNSW index constructor is not in
the corpus (only its configuration and its tests appear); per the test
test_reject_invalid_config it fails with "m must be > 0" when `m = 0`. -/
def hnswIndexNew (cfg : HnswConfig) : Except DbError HnswConfig :=
  if cfg.m = 0 then .error .invalidConfig else .ok cfg

/-- Embeds initialize_vector_db: reject dimensions outside 1..65536, fill the
HNSW configuration with the documented defaults, construct the (empty) index
and return the assembled database. -/
def initialize_vector_db (config : DbConfig) : Except DbError VectorDB :=
  if config.dimensions ≤ 0 ∨ MAX_DIMENSIONS < config.dimensions then
    .error .invalidConfig
  else
    match hnswIndexNew
      { m := config.m.getD 32
        ef_construction := config.ef_construction.getD 200
        ef_search := config.ef_search.getD 100
        max_elements := config.max_elements.getD 10000000 } with
    | .error e => .error e
    | .ok idx =>
        .ok { config := config, hnsw := idx, points := [], storage := [],
              idx_to_id := [], id_to_idx := [], next_id := 0 }

structure VectorEntry where
  id : Option Nat
  vector : List FloatVal
  metadata : List (String × String)
deriving DecidableEq, Repr

/-- Modelled from the spec: the body of the HNSW add_point operation is not in
the corpus.  The spec (rejects NaN/Infinity) and the test
test_reject_nan_values require insertion to reject vectors with non-finite
components with an InvalidValue error; otherwise the point is appended and its
index position returned. -/
def add_point (points : List (List FloatVal)) (v : List FloatVal) :
    Except DbError (List (List FloatVal) × Nat) :=
  if v.any (fun c => !c.isFinite) then .error .invalidValue
  else .ok (points ++ [v], points.length)

/-- Embeds insert: take the supplied id or generate a fresh one, reject a
dimension mismatch, then atomically (the pseudocode wraps the storage write
and index update in a TRANSACTION, so a failure inside leaves the database
unchanged) store the entry and register it in the index and both id maps. -/
def insert (db : VectorDB) (entry : VectorEntry) :
    Except DbError (Nat × VectorDB) :=
  let id := entry.id.getD db.next_id
  if entry.vector.length ≠ db.config.dimensions then
    .error (.dimensionMismatch db.config.dimensions entry.vector.length)
  else
    match add_point db.points entry.vector with
    | .error e => .error e
    | .ok (points2, idx) =>
        .ok (id,
          { db with
            points := points2
            storage := db.storage ++
              [(id, { vector := entry.vector, metadata := entry.metadata })]
            idx_to_id := db.idx_to_id ++ [(idx, id)]
            id_to_idx := db.id_to_idx ++ [(id, idx)]
            next_id := db.next_id + 1 })

structure SearchQuery where
  vector : List FloatVal
  k : Option Nat
  ef_search : Option Nat
  filter : Option (List (String × String))
deriving DecidableEq, Repr

structure SearchResult where
  id : Nat
  score : Int
  entry : StoredEntry
deriving DecidableEq, Repr

/-- Squared distance between two stored vectors over the discrete samples. -/
def sqDist (a b : List FloatVal) : Int :=
  (List.zipWith (fun x y => (FloatVal.toInt x - FloatVal.toInt y) ^ 2) a b).foldr
    (· + ·) 0

/-- Insertion into a distance-sorted list of (index, distance) pairs. -/
def insertByDist (x : Nat × Int) : List (Nat × Int) → List (Nat × Int)
  | [] => [x]
  | y :: ys => if x.2 ≤ y.2 then x :: y :: ys else y :: insertByDist x ys

/-- Insertion sort of (index, distance) pairs by non-decreasing distance. -/
def sortByDist : List (Nat × Int) → List (Nat × Int)
  | [] => []
  | x :: xs => insertByDist x (sortByDist xs)

/-- Modelled from the spec: the HNSW graph search itself is not in the corpus;
per the spec it returns the k nearest stored points as (index, distance)
pairs ordered by non-decreasing distance.  Modelled as exact nearest-neighbour
search over all points. -/
def hnswSearch (points : List (List FloatVal)) (q : List FloatVal) (k : Nat) :
    List (Nat × Int) :=
  (sortByDist ((List.range points.length).map
    (fun i => (i, sqDist (points.getD i []) q)))).take k

/-- Modelled from the spec: matches_filter is not in the corpus; a metadata
filter is a set of required key/value pairs.  No property below depends on its
internals (the filtered path is outside the claims). -/
def matches_filter (metadata filter : List (String × String)) : Bool :=
  filter.all (fun kv => metadata.contains kv)

/-- One step of the search result loop: map an (index, distance) neighbour to
a search result through the id map and storage, applying the metadata filter
when present, with score = 1 - distance. -/
def resultOf (db : VectorDB) (filter : Option (List (String × String)))
    (p : Nat × Int) : Option SearchResult :=
  match alookup db.idx_to_id p.1 with
  | none => none
  | some id =>
    match alookup db.storage id with
    | none => none
    | some entry =>
      match filter with
      | some f =>
          if matches_filter entry.metadata f then
            some { id := id, score := 1 - p.2, entry := entry }
          else none
      | none => some { id := id, score := 1 - p.2, entry := entry }

/-- Embeds search: reject a query dimension mismatch, take k (default 10)
nearest neighbours from the index and convert them to scored results. -/
def search (db : VectorDB) (q : SearchQuery) :
    Except DbError (List SearchResult) :=
  if q.vector.length ≠ db.config.dimensions then
    .error (.dimensionMismatch db.config.dimensions q.vector.length)
  else
    let k := q.k.getD 10
    let neighbors := hnswSearch db.points q.vector k
    .ok (neighbors.filterMap (resultOf db q.filter))

/-- Internal consistency of the id maps: every index position resolves through
idx_to_id to an id present in storage.  Every database reachable through
`insert` from `initialize_vector_db` satisfies this. -/
def wellFormedIdx (db : VectorDB) : Bool :=
  (List.range db.points.length).all (fun i =>
    ((alookup db.idx_to_id i).bind (alookup db.storage)).isSome)

/-! ## Swarm orchestration -/

inductive AgentState where
  | initializing
  | ready
  | busy
  | unhealthy
  | terminated
deriving DecidableEq, Repr

structure AgentMetrics where
  tasks_assigned : Nat
  tasks_completed : Nat
deriving DecidableEq, Repr

structure Agent where
  id : Nat
  agent_type : String
  state : AgentState
  capabilities : List String
  metrics : AgentMetrics
deriving DecidableEq, Repr

structure Task where
  id : Nat
  required_capability : Option String
  affinity : Option Nat
  priority : Nat
  timeout : Option Nat
  max_retries : Option Nat
deriving DecidableEq, Repr

structure TaskAssignment where
  task_id : Nat
  agent_id : Nat
  timeout : Nat
  retry_count : Nat
  max_retries : Nat
deriving DecidableEq, Repr

/-- Default task timeout; the pseudocode names the constant DEFAULT_TIMEOUT
without fixing its value, so an arbitrary one is used (no property depends on
it). -/
def DEFAULT_TIMEOUT : Nat := 30000

structure LogEntry where
  term : Nat
  index : Nat
  value : Nat
deriving DecidableEq, Repr

inductive RaftState where
  | follower
  | candidate
  | leader
deriving DecidableEq, Repr

structure RaftNode where
  state : RaftState
  current_term : Nat
  current_leader : Option Nat
  log : List LogEntry
  commit_index : Option Nat
  followers : List Nat
deriving DecidableEq, Repr

/-- Swarm state restricted to what the embedded operations read and write:
the agent list, the pending-task queue, the queue-when-unavailable flag and
the optional Raft consensus state. -/
structure Swarm where
  agents : List Agent
  queue : List (Nat × Nat)
  queue_when_unavailable : Bool
  consensus : Option RaftNode
deriving DecidableEq, Repr

inductive SwarmError where
  | noEligibleAgents
  | consensusNotEnabled
  | noLeader
deriving DecidableEq, Repr

/-- Modelled from the spec: has_capability is not in the corpus; per the
capability-filter test an agent has a required capability when it appears in
its capability list, and a task with no required capability constrains
nothing. -/
def has_capability (a : Agent) (c : Option String) : Bool :=
  match c with
  | none => true
  | some s => a.capabilities.contains s

/-- Eligibility filter of distribute_task: state is READY, the agent has the
task's required capability and satisfies its affinity.  The affinity predicate
satisfies_affinity is not defined in the corpus and is passed in as a
parameter. -/
def eligible (satAff : Agent → Option Nat → Bool) (task : Task)
    (a : Agent) : Bool :=
  a.state == .ready && has_capability a task.required_capability &&
    satAff a task.affinity

/-- The in-place update distribute_task applies to the selected agent:
state becomes BUSY and the tasks_assigned counter increases by one. -/
def markAssigned (a : Agent) : Agent :=
  { a with state := .busy,
           metrics :=
             { a.metrics with
               tasks_assigned := a.metrics.tasks_assigned + 1 } }

/-- Walks the agent list, selecting the first agent satisfying the predicate
and applying markAssigned to exactly that agent, leaving every other list
position untouched.  Modelled from the spec: the load balancer's select over
the eligible agents is not in the corpus (only balancer constructors appear);
it is modelled as picking the first eligible agent, one instance of the
configurable selection policies, all of which choose among the eligible
agents. -/
def assignFirst (p : Agent → Bool) : List Agent → Option (Agent × List Agent)
  | [] => none
  | a :: rest =>
    if p a then some (a, markAssigned a :: rest)
    else
      match assignFirst p rest with
      | none => none
      | some (sel, rest2) => some (sel, a :: rest2)

inductive DistributeOutcome where
  | assigned (asg : TaskAssignment)
  | queued
deriving DecidableEq, Repr

/-- Embeds distribute_task: filter the eligible agents; if none, enqueue the
task (when configured) or fail with NoEligibleAgents; otherwise select an
eligible agent, build the assignment, and mutate exactly the selected agent's
state and metrics. -/
def distribute_task (satAff : Agent → Option Nat → Bool) (swarm : Swarm)
    (task : Task) : Except SwarmError (DistributeOutcome × Swarm) :=
  match assignFirst (eligible satAff task) swarm.agents with
  | some (sel, agents2) =>
      .ok (.assigned
            { task_id := task.id
              agent_id := sel.id
              timeout := task.timeout.getD DEFAULT_TIMEOUT
              retry_count := 0
              max_retries := task.max_retries.getD 3 },
           { swarm with agents := agents2 })
  | none =>
      if swarm.queue_when_unavailable then
        .ok (.queued, { swarm with queue := swarm.queue ++ [(task.id, task.priority)] })
      else
        .error .noEligibleAgents

/-- Outcome of propose_consensus: a forwarded proposal, an error, or a
completed round carrying the success flag, the updated Raft state and the
list of values applied to the local state machine during the call. -/
inductive ProposeOutcome where
  | forwarded (leader : Nat)
  | err (e : SwarmError)
  | done (success : Bool) (raft : RaftNode) (applied : List Nat)
deriving DecidableEq, Repr

/-- Embeds propose_consensus: error when consensus is disabled; a non-leader
forwards to the known leader or fails with NoLeader; the leader appends the
entry to its local log, replicates to its followers (the network send is the
sendAppend parameter), counts acknowledgments starting at 1 for itself,
computes the quorum as floor(swarm agent count / 2) + 1, and commits and
applies the value exactly when the count reaches the quorum. -/
def propose_consensus (swarm : Swarm) (sendAppend : Nat → LogEntry → Bool)
    (value : Nat) : ProposeOutcome :=
  match swarm.consensus with
  | none => .err .consensusNotEnabled
  | some raft =>
    if raft.state ≠ .leader then
      match raft.current_leader with
      | some lid => .forwarded lid
      | none => .err .noLeader
    else
      let entry : LogEntry :=
        { term := raft.current_term, index := raft.log.length, value := value }
      let raft2 := { raft with log := raft.log ++ [entry] }
      let replication_count :=
        1 + (raft.followers.filter (fun f => sendAppend f entry)).length
      let quorum := swarm.agents.length / 2 + 1
      if quorum ≤ replication_count then
        .done true { raft2 with commit_index := some entry.index } [value]
      else
        .done false raft2 []

/-! ## Retry with exponential backoff -/

structure RetryConfig where
  max_retries : Nat
  base : Nat
  max_backoff : Nat
deriving DecidableEq, Repr

/-- The backoff formula documented at the calculate call site:
min(base * 2 ^ attempt, max_backoff). -/
def backoffCalc (cfg : RetryConfig) (attempt : Nat) : Nat :=
  min (cfg.base * 2 ^ attempt) cfg.max_backoff

/-- Result of a retried execution: success with the attempt counter at return
time and the backoff delays slept so far, or failure with the recorded number
of attempts and all delays. -/
inductive TaskOutcome (α : Type) where
  | ok (v : α) (attempt : Nat) (delays : List Nat)
  | failed (attempts : Nat) (delays : List Nat)
deriving DecidableEq, Repr

/-- Loop body of execute_with_retry, recursing on the remaining iterations of
the guard attempt < max_retries.  The executor abstracts the whole guarded
try-block (circuit-breaker check plus task execution): none is any caught
error, some a successful result. -/
def retryAux {α : Type} (exec : Nat → Option α) (cfg : RetryConfig) :
    Nat → Nat → List Nat → TaskOutcome α
  | attempt, 0, delays => .failed attempt delays
  | attempt, remaining + 1, delays =>
    match exec attempt with
    | some v => .ok v attempt delays
    | none =>
      let attempt2 := attempt + 1
      let backoff := backoffCalc cfg attempt2
      retryAux exec cfg attempt2 remaining (delays ++ [backoff])

/-- Embeds execute_with_retry: start at attempt 0 and loop while
attempt < max_retries, incrementing the attempt counter and sleeping the
calculated backoff after each failure; when the guard fails, report failure
with the recorded attempts. -/
def execute_with_retry {α : Type} (exec : Nat → Option α)
    (cfg : RetryConfig) : TaskOutcome α :=
  retryAux exec cfg 0 cfg.max_retries []

/-- Modelled from the spec: after retry exhaustion the task is moved to a
dead-letter list and reported; the dead-letter bookkeeping itself is not in
the corpus.  Records the task id with its recorded attempt count. -/
def run_with_dead_letter {α : Type} (exec : Nat → Option α)
    (cfg : RetryConfig) (taskId : Nat) (dead : List (Nat × Nat)) :
    TaskOutcome α × List (Nat × Nat) :=
  match execute_with_retry exec cfg with
  | .ok v a ds => (.ok v a ds, dead)
  | .failed n ds => (.failed n ds, dead ++ [(taskId, n)])

/-! ## Federated memory synchronization -/

structure Change where
  id : Nat
  value : Nat
  timestamp : Nat
deriving DecidableEq, Repr

structure SyncResponse where
  changes : List Change
  vector_clock : List (Nat × Nat)
deriving DecidableEq, Repr

structure MemoryStore where
  node_id : Nat
  store : List (Nat × Nat)
  vector_clock : List (Nat × Nat)
deriving DecidableEq, Repr

structure SyncResult where
  synced_count : Nat
  conflicts_resolved : Nat
  conflicts : List Nat
deriving DecidableEq, Repr

/-- Increment of one component of a vector clock, creating it at 1 when
absent. -/
def vcIncrement (vc : List (Nat × Nat)) (n : Nat) : List (Nat × Nat) :=
  if (vc.find? (fun p => p.1 == n)).isSome then
    vc.map (fun p => if p.1 == n then (p.1, p.2 + 1) else p)
  else vc ++ [(n, 1)]

/-- Association-list update: replace the first binding of the key, or append
a fresh binding when the key is absent. -/
def setAssoc (l : List (Nat × Nat)) (k v : Nat) : List (Nat × Nat) :=
  match l with
  | [] => [(k, v)]
  | p :: rest => if p.1 == k then (k, v) :: rest else p :: setAssoc rest k v

/-- Modelled from the spec: apply_change is not in the corpus; it installs the
change's value at its key in the local store. -/
def apply_change (mem : MemoryStore) (c : Change) : MemoryStore :=
  { mem with store := setAssoc mem.store c.id c.value }

/-- Loop body of the sync merge: look up the per-key local and remote versions
in the vector clocks (an absent remote component reads as 0); when the local
version is absent or smaller the remote change is applied, when it is larger
the change is skipped, and when they are equal (concurrent) the configured
conflict strategy — the resolve parameter, last-write-wins or a merge
function — produces the merged change, which is applied, and the key is
appended to the resolved-conflict list. -/
def merge_change (resolve : Option Nat → Change → Change)
    (acc : MemoryStore × List Nat) (remoteClock : List (Nat × Nat))
    (c : Change) : MemoryStore × List Nat :=
  let remote_version := (alookup remoteClock c.id).getD 0
  match alookup acc.1.vector_clock c.id with
  | none => (apply_change acc.1 c, acc.2)
  | some lv =>
    if lv < remote_version then (apply_change acc.1 c, acc.2)
    else if remote_version < lv then acc
    else
      let merged := resolve (alookup acc.1.store c.id) c
      (apply_change acc.1 merged, acc.2 ++ [c.id])

/-- Embeds sync_federated_memory from the merge phase on: peer responses (or
none for an unreachable peer) are folded through the per-change merge, the
local node's own vector-clock component is incremented unconditionally at the
end, and the result reports reachable-peer and resolved-conflict counts. -/
def sync_federated_memory (resolve : Option Nat → Change → Change)
    (localMem : MemoryStore) (responses : List (Nat × Option SyncResponse)) :
    MemoryStore × SyncResult :=
  let merged := responses.foldl
    (fun acc pr =>
      match pr.2 with
      | none => acc
      | some r =>
          r.changes.foldl (fun a c => merge_change resolve a r.vector_clock c) acc)
    (localMem, [])
  let final :=
    { merged.1 with
      vector_clock := vcIncrement merged.1.vector_clock merged.1.node_id }
  (final,
   { synced_count := responses.countP (fun pr => pr.2.isSome)
     conflicts_resolved := merged.2.length
     conflicts := merged.2 })

/-- Synchronization against a single reachable peer carrying a single
change. -/
def syncOne (resolve : Option Nat → Change → Change) (localMem : MemoryStore)
    (peer : Nat) (remoteClock : List (Nat × Nat)) (c : Change) :
    MemoryStore × SyncResult :=
  sync_federated_memory resolve localMem
    [(peer, some { changes := [c], vector_clock := remoteClock })]

/-! ## Concrete instances used by the witnesses -/

def cfg3 : DbConfig :=
  { dimensions := 3, m := some 16, ef_construction := none,
    ef_search := none, max_elements := none }

def hnsw3 : HnswConfig :=
  { m := 16, ef_construction := 200, ef_search := 100, max_elements := 10000000 }

/-- An empty three-dimensional database, as initialize_vector_db builds it. -/
def db3 : VectorDB :=
  { config := cfg3, hnsw := hnsw3, points := [], storage := [],
    idx_to_id := [], id_to_idx := [], next_id := 0 }

def nanEntry : VectorEntry :=
  { id := none, vector := [.nan, .finite 0, .finite 0], metadata := [] }

def entryA : StoredEntry :=
  { vector := [.finite 1, .finite 0, .finite 0], metadata := [] }

def entryB : StoredEntry :=
  { vector := [.finite 0, .finite 1, .finite 0], metadata := [] }

/-- A populated three-dimensional database holding two unit vectors, as two
inserts leave it. -/
def dbW : VectorDB :=
  { config := cfg3, hnsw := hnsw3,
    points := [entryA.vector, entryB.vector],
    storage := [(0, entryA), (1, entryB)],
    idx_to_id := [(0, 0), (1, 1)], id_to_idx := [(0, 0), (1, 1)],
    next_id := 2 }

def qW : SearchQuery :=
  { vector := [.finite 1, .finite 0, .finite 0], k := some 5,
    ef_search := none, filter := none }

def coder : Agent :=
  { id := 1, agent_type := "coder", state := .ready,
    capabilities := ["code"], metrics := { tasks_assigned := 0, tasks_completed := 0 } }

def reviewer : Agent :=
  { id := 2, agent_type := "reviewer", state := .ready,
    capabilities := ["review"], metrics := { tasks_assigned := 0, tasks_completed := 0 } }

def swarmCR : Swarm :=
  { agents := [coder, reviewer], queue := [],
    queue_when_unavailable := false, consensus := none }

def reviewTask : Task :=
  { id := 10, required_capability := some "review", affinity := none,
    priority := 0, timeout := none, max_retries := none }

def swarmOne : Swarm :=
  { agents := [coder], queue := [],
    queue_when_unavailable := false, consensus := none }

def codeTask : Task :=
  { id := 11, required_capability := some "code", affinity := none,
    priority := 1, timeout := none, max_retries := none }

/-- The assignment the review task receives in swarmCR. -/
def asgR : TaskAssignment :=
  { task_id := 10, agent_id := 2, timeout := DEFAULT_TIMEOUT,
    retry_count := 0, max_retries := 3 }

/-- The swarm state after the review task is assigned in swarmCR. -/
def swR : Swarm :=
  { agents := [coder, markAssigned reviewer], queue := [],
    queue_when_unavailable := false, consensus := none }

/-- The assignment the code task receives in swarmOne. -/
def asgO : TaskAssignment :=
  { task_id := 11, agent_id := 1, timeout := DEFAULT_TIMEOUT,
    retry_count := 0, max_retries := 3 }

/-- The swarm state after the code task is assigned in swarmOne. -/
def swO : Swarm :=
  { agents := [markAssigned coder], queue := [],
    queue_when_unavailable := false, consensus := none }

def blankAgent (n : Nat) : Agent :=
  { id := n, agent_type := "worker", state := .ready, capabilities := [],
    metrics := { tasks_assigned := 0, tasks_completed := 0 } }

def raftC1 : RaftNode :=
  { state := .leader, current_term := 4, current_leader := some 0,
    log := [], commit_index := none, followers := [1, 2] }

/-- A three-agent swarm whose leader has two followers. -/
def swarmC1 : Swarm :=
  { agents := [blankAgent 0, blankAgent 1, blankAgent 2], queue := [],
    queue_when_unavailable := false, consensus := some raftC1 }

/-- The raft state swarmC1's failed round leaves behind: the entry appended,
the commit index untouched. -/
def raftC1after : RaftNode :=
  { state := .leader, current_term := 4, current_leader := some 0,
    log := [{ term := 4, index := 0, value := 9 }], commit_index := none,
    followers := [1, 2] }

def raftC9 : RaftNode :=
  { state := .leader, current_term := 2, current_leader := some 0,
    log := [], commit_index := none, followers := [1] }

/-- The raft state swarmC9's failed round leaves behind. -/
def raftC9after : RaftNode :=
  { state := .leader, current_term := 2, current_leader := some 0,
    log := [{ term := 2, index := 0, value := 7 }], commit_index := none,
    followers := [1] }

/-- A five-agent swarm whose leader has a single consensus follower, so the
swarm-size quorum (3) differs from a voting-node quorum (2 of 2). -/
def swarmC9 : Swarm :=
  { agents := [blankAgent 0, blankAgent 1, blankAgent 2, blankAgent 3,
               blankAgent 4],
    queue := [], queue_when_unavailable := false, consensus := some raftC9 }

def mem0 : MemoryStore :=
  { node_id := 0, store := [(7, 40)], vector_clock := [(0, 5), (7, 2)] }

/-- A single reachable peer reporting no changes since the last sync. -/
def emptyResp : List (Nat × Option SyncResponse) :=
  [(1, some { changes := [], vector_clock := [(1, 3)] })]

def changeC5 : Change := { id := 7, value := 99, timestamp := 12 }

/-- A single reachable peer carrying one change whose remote version equals
the local version for its key, a concurrent write. -/
def conflictResp : List (Nat × Option SyncResponse) :=
  [(1, some { changes := [changeC5], vector_clock := [(7, 2)] })]

/-- A last-write-wins strategy instance used to exercise the conflict
branch. -/
def lwwResolve : Option Nat → Change → Change := fun _ c => c

def rcfg : RetryConfig := { max_retries := 3, base := 100, max_backoff := 30000 }

def alwaysFail : Nat → Option Unit := fun _ => none

def trueAff : Agent → Option Nat → Bool := fun _ _ => true

/-! ## Theorems -/

/-- C8: for every index configuration (with an explicit neighbors-per-node
value), create fails with InvalidConfig exactly when dimensions is 0,
dimensions exceeds 65536, or neighbors_per_node is 0, and otherwise succeeds
with an empty index. -/
theorem create_invalid_config_iff (cfg : DbConfig) (mv : Nat)
    (hm : cfg.m = some mv) :
    (initialize_vector_db cfg = .error .invalidConfig ↔
      (cfg.dimensions = 0 ∨ 65536 < cfg.dimensions ∨ mv = 0)) ∧
    (¬(cfg.dimensions = 0 ∨ 65536 < cfg.dimensions ∨ mv = 0) →
      ∃ db, initialize_vector_db cfg = .ok db ∧
        db.points = [] ∧ db.storage = []) := by
  unfold initialize_vector_db hnswIndexNew
  rw [hm]
  by_cases h1 : cfg.dimensions ≤ 0 ∨ MAX_DIMENSIONS < cfg.dimensions
  · rw [if_pos h1]
    simp only [MAX_DIMENSIONS] at h1
    refine ⟨⟨fun _ => by omega, fun _ => rfl⟩, fun hn => absurd (by omega) hn⟩
  · rw [if_neg h1]
    simp only [MAX_DIMENSIONS] at h1
    by_cases h3 : mv = 0
    · simp only [Option.getD_some, h3, if_pos rfl]
      exact ⟨⟨fun _ => Or.inr (Or.inr trivial), fun _ => rfl⟩,
             fun hn => absurd (Or.inr (Or.inr trivial)) hn⟩
    · have h4 :
          ¬({ m := (some mv).getD 32, ef_construction := cfg.ef_construction.getD 200,
              ef_search := cfg.ef_search.getD 100,
              max_elements := cfg.max_elements.getD 10000000 } : HnswConfig).m = 0 := by
        simpa using h3
      simp only [Option.getD_some] at h4 ⊢
      rw [if_neg h4]
      refine ⟨⟨fun h => by simp at h, fun h => ?_⟩, fun _ => ⟨_, rfl, rfl, rfl⟩⟩
      rcases h with h | h | h
      · omega
      · omega
      · exact absurd h h3

/-- C8 witness: a valid configuration is accepted with an empty index, and an
invalid one (neighbors_per_node 0) is rejected. -/
theorem create_invalid_config_iff_witness :
    initialize_vector_db cfg3 = .ok db3 ∧ db3.points = [] ∧
    initialize_vector_db { cfg3 with m := some 0 } = .error .invalidConfig := by
  refine ⟨rfl, rfl, ?_⟩
  exact (create_invalid_config_iff { cfg3 with m := some 0 } 0 rfl).1.mpr
    (by decide)

/-- C3: inserting a vector of the right dimension that contains a NaN or
infinite component fails with InvalidValue; since the storage write and index
update are transactional, the returned error carries no updated database and
the index is unchanged. -/
theorem insert_rejects_nonfinite (db : VectorDB) (entry : VectorEntry)
    (hdim : entry.vector.length = db.config.dimensions)
    (hnf : entry.vector.any (fun c => !c.isFinite) = true) :
    insert db entry = .error .invalidValue := by
  unfold insert add_point
  simp [hdim, hnf]

/-- C3 witness: a NaN-carrying three-component vector is rejected by the
three-dimensional database. -/
theorem insert_rejects_nonfinite_witness :
    nanEntry.vector.length = db3.config.dimensions ∧
    nanEntry.vector.any (fun c => !c.isFinite) = true ∧
    insert db3 nanEntry = .error .invalidValue :=
  ⟨by decide, by decide,
   insert_rejects_nonfinite db3 nanEntry (by decide) (by decide)⟩

/-- C6: a task whose execution fails on every attempt under max_retries = 3
ends with exactly 3 recorded attempts (not 4), entering the dead-letter list
with that count, and the successive retry delays are
min(base * 2 ^ attempt, max_backoff) for attempts 1, 2, 3. -/
theorem retry_exhaustion_dead_letter {α : Type} (exec : Nat → Option α)
    (cfg : RetryConfig) (taskId : Nat) (dead : List (Nat × Nat))
    (hmax : cfg.max_retries = 3) (hfail : ∀ n, exec n = none) :
    execute_with_retry exec cfg =
      .failed 3 [min (cfg.base * 2 ^ 1) cfg.max_backoff,
                 min (cfg.base * 2 ^ 2) cfg.max_backoff,
                 min (cfg.base * 2 ^ 3) cfg.max_backoff] ∧
    run_with_dead_letter exec cfg taskId dead =
      (.failed 3 [min (cfg.base * 2 ^ 1) cfg.max_backoff,
                  min (cfg.base * 2 ^ 2) cfg.max_backoff,
                  min (cfg.base * 2 ^ 3) cfg.max_backoff],
       dead ++ [(taskId, 3)]) := by
  have h1 : execute_with_retry exec cfg =
      .failed 3 [min (cfg.base * 2 ^ 1) cfg.max_backoff,
                 min (cfg.base * 2 ^ 2) cfg.max_backoff,
                 min (cfg.base * 2 ^ 3) cfg.max_backoff] := by
    unfold execute_with_retry
    rw [hmax]
    simp [retryAux, hfail, backoffCalc]
  refine ⟨h1, ?_⟩
  unfold run_with_dead_letter
  rw [h1]

/-- C6 witness: with base 100 and cap 30000 the three recorded delays are
200, 400, 800 and the task lands in the dead-letter list with 3 attempts. -/
theorem retry_exhaustion_dead_letter_witness :
    rcfg.max_retries = 3 ∧
    execute_with_retry alwaysFail rcfg = .failed 3 [200, 400, 800] ∧
    run_with_dead_letter alwaysFail rcfg 42 [] =
      (.failed 3 [200, 400, 800], [(42, 3)]) := by
  have h := retry_exhaustion_dead_letter alwaysFail rcfg 42 [] rfl
    (fun _ => rfl)
  exact ⟨rfl, by simpa using h.1, by simpa using h.2⟩

/-- Functional characterization of propose_consensus on a leader, shared by
the commitment theorems below. -/
theorem propose_leader_eq (swarm : Swarm) (raft : RaftNode)
    (send : Nat → LogEntry → Bool) (value : Nat)
    (hc : swarm.consensus = some raft) (hl : raft.state = .leader) :
    propose_consensus swarm send value =
      (if swarm.agents.length / 2 + 1 ≤
          1 + (raft.followers.filter (fun f =>
                send f { term := raft.current_term, index := raft.log.length,
                         value := value })).length then
        .done true
          { raft with
            log := raft.log ++ [{ term := raft.current_term,
                                  index := raft.log.length, value := value }]
            commit_index := some raft.log.length } [value]
      else
        .done false
          { raft with
            log := raft.log ++ [{ term := raft.current_term,
                                  index := raft.log.length, value := value }] }
          []) := by
  unfold propose_consensus
  rw [hc]
  simp [hl]

/-- C1: on the leader, the proposed entry is committed and applied only when
the nodes storing it (the leader plus the followers that acknowledged the
append) number at least floor(N/2)+1 for the swarm's N agents; with fewer
acknowledgments the round reports failure, nothing is applied to the state
machine, and the commit index is unchanged. -/
theorem propose_commit_requires_majority (swarm : Swarm) (raft : RaftNode)
    (send : Nat → LogEntry → Bool) (value : Nat) (s : Bool)
    (raft2 : RaftNode) (applied : List Nat)
    (hc : swarm.consensus = some raft) (hl : raft.state = .leader)
    (hdone : propose_consensus swarm send value = .done s raft2 applied) :
    (s = true → swarm.agents.length / 2 + 1 ≤
        1 + (raft.followers.filter (fun f =>
          send f { term := raft.current_term, index := raft.log.length,
                   value := value })).length) ∧
    (1 + (raft.followers.filter (fun f =>
          send f { term := raft.current_term, index := raft.log.length,
                   value := value })).length < swarm.agents.length / 2 + 1 →
        s = false ∧ applied = [] ∧ raft2.commit_index = raft.commit_index) ∧
    (applied ≠ [] → s = true) := by
  rw [propose_leader_eq swarm raft send value hc hl] at hdone
  by_cases hq : swarm.agents.length / 2 + 1 ≤
      1 + (raft.followers.filter (fun f =>
        send f { term := raft.current_term, index := raft.log.length,
                 value := value })).length
  · rw [if_pos hq] at hdone
    have h1 : s = true ∧ applied = [value] := by
      have := hdone
      simp only [ProposeOutcome.done.injEq] at this
      exact ⟨this.1.symm, this.2.2.symm⟩
    exact ⟨fun _ => hq, fun hlt => absurd hq (by omega), fun _ => h1.1⟩
  · rw [if_neg hq] at hdone
    simp only [ProposeOutcome.done.injEq] at hdone
    refine ⟨fun hs => by rw [← hdone.1] at hs; exact Bool.noConfusion hs,
            fun _ => ⟨hdone.1.symm, hdone.2.2.symm, ?_⟩,
            fun ha => absurd hdone.2.2.symm ha⟩
    rw [← hdone.2.1]

/-- C1 witness: in the three-agent swarm no follower acknowledges, so the
acknowledgment count 1 misses the quorum 2; the round fails, nothing is
applied and the commit index stays unchanged. -/
theorem propose_commit_requires_majority_witness :
    propose_consensus swarmC1 (fun _ _ => false) 9 =
      .done false raftC1after [] ∧
    raftC1after.commit_index = raftC1.commit_index := by
  have hdone : propose_consensus swarmC1 (fun _ _ => false) 9 =
      .done false raftC1after [] := by decide
  have h := propose_commit_requires_majority swarmC1 raftC1 (fun _ _ => false)
    9 false raftC1after [] rfl rfl hdone
  exact ⟨hdone, (h.2.1 (by decide)).2.2⟩

/-- C9: on the leader, the replication count starts at 1 for the leader's own
local append, the quorum is floor(swarm agent count / 2) + 1 computed over
the swarm's agent count (the follower list enters only through the
acknowledgment count, not the threshold), and the round succeeds exactly when
successful follower replications plus one reach that threshold. -/
theorem propose_quorum_over_swarm_size (swarm : Swarm) (raft : RaftNode)
    (send : Nat → LogEntry → Bool) (value : Nat)
    (hc : swarm.consensus = some raft) (hl : raft.state = .leader) :
    ∃ s raft2 applied,
      propose_consensus swarm send value = .done s raft2 applied ∧
      (s = true ↔
        swarm.agents.length / 2 + 1 ≤
          1 + (raft.followers.filter (fun f =>
            send f { term := raft.current_term, index := raft.log.length,
                     value := value })).length) := by
  rw [propose_leader_eq swarm raft send value hc hl]
  by_cases hq : swarm.agents.length / 2 + 1 ≤
      1 + (raft.followers.filter (fun f =>
        send f { term := raft.current_term, index := raft.log.length,
                 value := value })).length
  · rw [if_pos hq]
    exact ⟨true, _, [value], rfl, by simp [hq]⟩
  · rw [if_neg hq]
    exact ⟨false, _, [], rfl, by simp [hq]⟩

/-- C9 witness: five agents but a single follower; even with every append
acknowledged the count 2 misses the swarm-size quorum 3, so the round fails
(a voting-node quorum of 2 of 2 would have committed). -/
theorem propose_quorum_over_swarm_size_witness :
    propose_consensus swarmC9 (fun _ _ => true) 7 =
      .done false raftC9after [] := by
  obtain ⟨s, raft2, applied, heq, hiff⟩ :=
    propose_quorum_over_swarm_size swarmC9 raftC9 (fun _ _ => true) 7 rfl rfl
  have hs : s = false := by
    cases hsv : s with
    | false => rfl
    | true => exact absurd (hiff.mp hsv) (by decide)
  rw [hs] at heq
  have hval : ProposeOutcome.done false raft2 applied =
      .done false raftC9after [] := by
    rw [← heq]
    decide
  exact heq.trans hval

/-- The merge fold of sync_federated_memory is the identity when every
reachable peer reports no changes. -/
theorem mergeFold_no_changes (resolve : Option Nat → Change → Change)
    (responses : List (Nat × Option SyncResponse))
    (acc : MemoryStore × List Nat)
    (h : ∀ pr ∈ responses, ∀ r, pr.2 = some r → r.changes = []) :
    responses.foldl
      (fun a2 pr =>
        match pr.2 with
        | none => a2
        | some r =>
            r.changes.foldl (fun a c => merge_change resolve a r.vector_clock c) a2)
      acc = acc := by
  induction responses generalizing acc with
  | nil => rfl
  | cons hd tl ih =>
    rw [List.foldl_cons]
    have hstep : (match hd.2 with
        | none => acc
        | some r =>
            r.changes.foldl (fun a c => merge_change resolve a r.vector_clock c) acc)
        = acc := by
      cases hh : hd.2 with
      | none => rfl
      | some r =>
        have hch : r.changes = [] := h hd (List.mem_cons_self _ _) r hh
        simp [hch]
    rw [hstep]
    exact ih acc (fun pr hpr r hr => h pr (List.mem_cons_of_mem _ hpr) r hr)

/-- C2 counterexample: re-synchronizing with a peer that has no new changes
does change the version vector — the sync unconditionally increments the
local node's own component at the end. -/
theorem sync_idempotence_counterexample :
    (sync_federated_memory lwwResolve mem0 emptyResp).1.vector_clock ≠
      mem0.vector_clock := by
  decide

/-- C2 amended: re-synchronizing with peers that have no new changes leaves
the store and every vector-clock component unchanged except the local node's
own counter, which the sync increments by one; no conflicts are recorded. -/
theorem sync_no_new_changes_increments_own
    (resolve : Option Nat → Change → Change) (localMem : MemoryStore)
    (responses : List (Nat × Option SyncResponse))
    (hempty : ∀ pr ∈ responses, ∀ r, pr.2 = some r → r.changes = []) :
    (sync_federated_memory resolve localMem responses).1.vector_clock =
      vcIncrement localMem.vector_clock localMem.node_id ∧
    (sync_federated_memory resolve localMem responses).1.store =
      localMem.store ∧
    (sync_federated_memory resolve localMem responses).2.conflicts_resolved
      = 0 := by
  simp only [sync_federated_memory]
  rw [mergeFold_no_changes resolve responses (localMem, []) hempty]
  exact ⟨rfl, rfl, rfl⟩

/-- C2 amended witness: the concrete no-change sync bumps only the local
node's own counter. -/
theorem sync_no_new_changes_increments_own_witness :
    (sync_federated_memory lwwResolve mem0 emptyResp).1.vector_clock =
      vcIncrement mem0.vector_clock mem0.node_id ∧
    (sync_federated_memory lwwResolve mem0 emptyResp).1.vector_clock =
      [(0, 6), (7, 2)] := by
  have hempty : ∀ pr ∈ emptyResp, ∀ r, pr.2 = some r → r.changes = [] := by
    intro pr hpr r hr
    rcases List.mem_singleton.mp hpr with rfl
    cases hr
    rfl
  have h := sync_no_new_changes_increments_own lwwResolve mem0 emptyResp hempty
  exact ⟨h.1, by decide⟩

/-- Looking up the key just written by the association-list update returns the
written value. -/
theorem alookup_setAssoc (l : List (Nat × Nat)) (k v : Nat) :
    alookup (setAssoc l k v) k = some v := by
  induction l with
  | nil => simp [setAssoc, alookup, List.find?]
  | cons p rest ih =>
    by_cases h : p.1 == k
    · simp [setAssoc, h, alookup, List.find?]
    · have hf : (p.1 == k) = false := by simpa using h
      simp only [setAssoc, hf, Bool.false_eq_true, if_false]
      simp only [alookup, List.find?] at ih ⊢
      rw [hf]
      exact ih

/-- C5: synchronizing one key against a peer resolves it by the per-key
versions: a strictly smaller local version takes the remote value, a strictly
larger one keeps the local value, and an equal (concurrent) version applies
the configured conflict strategy and records the key exactly once as a
resolved conflict in the sync result. -/
theorem sync_conflict_trichotomy (resolve : Option Nat → Change → Change)
    (localMem : MemoryStore) (peer : Nat) (remoteClock : List (Nat × Nat))
    (c : Change) (lv : Nat)
    (hl : alookup localMem.vector_clock c.id = some lv) :
    (lv < (alookup remoteClock c.id).getD 0 →
      (syncOne resolve localMem peer remoteClock c).1.store =
        setAssoc localMem.store c.id c.value ∧
      (syncOne resolve localMem peer remoteClock c).2.conflicts_resolved = 0) ∧
    ((alookup remoteClock c.id).getD 0 < lv →
      (syncOne resolve localMem peer remoteClock c).1.store =
        localMem.store ∧
      (syncOne resolve localMem peer remoteClock c).2.conflicts_resolved = 0) ∧
    (lv = (alookup remoteClock c.id).getD 0 →
      (syncOne resolve localMem peer remoteClock c).1.store =
        setAssoc localMem.store (resolve (alookup localMem.store c.id) c).id
          (resolve (alookup localMem.store c.id) c).value ∧
      alookup (syncOne resolve localMem peer remoteClock c).1.store
          (resolve (alookup localMem.store c.id) c).id =
        some (resolve (alookup localMem.store c.id) c).value ∧
      (syncOne resolve localMem peer remoteClock c).2.conflicts = [c.id] ∧
      (syncOne resolve localMem peer remoteClock c).2.conflicts_resolved
        = 1) := by
  have hbase :
      syncOne resolve localMem peer remoteClock c =
        (let merged := merge_change resolve (localMem, []) remoteClock c
         ({ merged.1 with
            vector_clock := vcIncrement merged.1.vector_clock merged.1.node_id },
          { synced_count := 1, conflicts_resolved := merged.2.length,
            conflicts := merged.2 })) := by
    simp [syncOne, sync_federated_memory]
  refine ⟨fun hlt => ?_, fun hgt => ?_, fun heq => ?_⟩
  · rw [hbase]
    simp only [merge_change, hl, if_pos hlt, apply_change]
    refine ⟨?_, ?_⟩ <;> trivial
  · rw [hbase]
    have hnlt : ¬lv < (alookup remoteClock c.id).getD 0 := by omega
    simp only [merge_change, hl, if_neg hnlt, if_pos hgt]
    refine ⟨?_, ?_⟩ <;> trivial
  · rw [hbase]
    have hnlt : ¬lv < (alookup remoteClock c.id).getD 0 := by omega
    have hngt : ¬(alookup remoteClock c.id).getD 0 < lv := by omega
    simp only [merge_change, hl, if_neg hnlt, if_neg hngt, apply_change]
    refine ⟨?_, ?_, ?_, ?_⟩ <;>
      first
      | trivial
      | exact alookup_setAssoc _ _ _

/-- C5 witness: a concurrent write (equal per-key versions 2 and 2) on key 7
is resolved by last-write-wins to the remote value 99 and the key is recorded
exactly once as a conflict. -/
theorem sync_conflict_trichotomy_witness :
    (syncOne lwwResolve mem0 1 [(7, 2)] changeC5).1.store = [(7, 99)] ∧
    (syncOne lwwResolve mem0 1 [(7, 2)] changeC5).2.conflicts = [7] ∧
    (syncOne lwwResolve mem0 1 [(7, 2)] changeC5).2.conflicts_resolved
      = 1 := by
  have h := sync_conflict_trichotomy lwwResolve mem0 1 [(7, 2)] changeC5 2 rfl
  have h3 := h.2.2 rfl
  exact ⟨by decide, h3.2.2.1, h3.2.2.2⟩

/-- The agent scan fails exactly when no agent satisfies the predicate. -/
theorem assignFirst_eq_none (p : Agent → Bool) (l : List Agent) :
    assignFirst p l = none ↔ ∀ a ∈ l, p a = false := by
  induction l with
  | nil => simp [assignFirst]
  | cons a rest ih =>
    by_cases h : p a = true
    · simp only [assignFirst, if_pos h]
      constructor
      · intro hc
        exact Option.noConfusion hc
      · intro hall
        rw [hall a (List.mem_cons_self a rest)] at h
        exact Bool.noConfusion h
    · have hf : p a = false := by simpa using h
      simp only [assignFirst, hf, Bool.false_eq_true, if_false]
      cases hres : assignFirst p rest with
      | none =>
        constructor
        · intro _ b hb
          rcases List.mem_cons.mp hb with rfl | hb2
          · exact hf
          · exact (ih.mp hres) b hb2
        · intro _
          rfl
      | some pr =>
        obtain ⟨sel, rest2⟩ := pr
        constructor
        · intro hc
          exact Option.noConfusion hc
        · intro hall
          have hn : assignFirst p rest = none :=
            ih.mpr (fun b hb => hall b (List.mem_cons_of_mem a hb))
          rw [hn] at hres
          exact Option.noConfusion hres

/-- A successful agent scan selects the first satisfying agent and updates
exactly its list position with markAssigned. -/
theorem assignFirst_eq_some (p : Agent → Bool) (l : List Agent)
    (sel : Agent) (l2 : List Agent)
    (h : assignFirst p l = some (sel, l2)) :
    p sel = true ∧ ∃ pre post, l = pre ++ sel :: post ∧
      (∀ a ∈ pre, p a = false) ∧ l2 = pre ++ markAssigned sel :: post := by
  induction l generalizing l2 with
  | nil => exact Option.noConfusion h
  | cons a rest ih =>
    by_cases hp : p a = true
    · simp only [assignFirst, if_pos hp] at h
      simp only [Option.some.injEq, Prod.mk.injEq] at h
      obtain ⟨rfl, rfl⟩ := h
      exact ⟨hp, [], rest, rfl, by simp, rfl⟩
    · have hf : p a = false := by simpa using hp
      simp only [assignFirst, hf, Bool.false_eq_true, if_false] at h
      cases hres : assignFirst p rest with
      | none =>
        rw [hres] at h
        exact Option.noConfusion h
      | some pr =>
        obtain ⟨sel2, rest2⟩ := pr
        rw [hres] at h
        simp only [Option.some.injEq, Prod.mk.injEq] at h
        obtain ⟨rfl, rfl⟩ := h
        obtain ⟨hpsel, pre, post, hl, hpre, hl2⟩ := ih rest2 hres
        refine ⟨hpsel, a :: pre, post, by rw [List.cons_append, hl], ?_,
                by rw [List.cons_append, hl2]⟩
        intro b hb
        rcases List.mem_cons.mp hb with rfl | hb2
        · exact hf
        · exact hpre b hb2

/-- C7: an agent is eligible for a task exactly when its state is Ready, it
has the task's required capability and it satisfies the task's affinity; when
some agent is eligible the task is assigned and the assigned agent is an
eligible member of the swarm; when none is eligible the task is queued if
queueing is enabled and otherwise the call fails with NoEligibleAgents. -/
theorem distribute_eligibility_spec (satAff : Agent → Option Nat → Bool)
    (swarm : Swarm) (task : Task) :
    (∀ a : Agent, eligible satAff task a = true ↔
        (a.state = AgentState.ready ∧
         has_capability a task.required_capability = true ∧
         satAff a task.affinity = true)) ∧
    (∀ asg sw2, distribute_task satAff swarm task = .ok (.assigned asg, sw2) →
        ∃ sel, sel ∈ swarm.agents ∧ eligible satAff task sel = true ∧
          asg.agent_id = sel.id) ∧
    ((∃ a, a ∈ swarm.agents ∧ eligible satAff task a = true) →
        ∃ asg sw2,
          distribute_task satAff swarm task = .ok (.assigned asg, sw2)) ∧
    ((∀ a ∈ swarm.agents, eligible satAff task a = false) →
        distribute_task satAff swarm task =
          (if swarm.queue_when_unavailable then
            .ok (.queued,
                 { swarm with queue := swarm.queue ++ [(task.id, task.priority)] })
          else .error .noEligibleAgents)) := by
  refine ⟨?_, ?_, ?_, ?_⟩
  · intro a
    simp [eligible, Bool.and_eq_true, beq_iff_eq]
    tauto
  · intro asg sw2 h
    unfold distribute_task at h
    cases hres : assignFirst (eligible satAff task) swarm.agents with
    | none =>
      rw [hres] at h
      by_cases hq : swarm.queue_when_unavailable
      · simp [hq] at h
      · simp [hq] at h
    | some pr =>
      obtain ⟨sel, agents2⟩ := pr
      rw [hres] at h
      obtain ⟨hp, pre, post, hl, hpre, hl2⟩ :=
        assignFirst_eq_some _ _ _ _ hres
      simp only [Except.ok.injEq, Prod.mk.injEq,
        DistributeOutcome.assigned.injEq] at h
      refine ⟨sel, ?_, hp, ?_⟩
      · rw [hl]
        exact List.mem_append_right pre (List.mem_cons_self sel post)
      · rw [← h.1]
  · intro hex
    obtain ⟨a, ha, helig⟩ := hex
    cases hres : assignFirst (eligible satAff task) swarm.agents with
    | none =>
      rw [(assignFirst_eq_none _ _).mp hres a ha] at helig
      exact Bool.noConfusion helig
    | some pr =>
      obtain ⟨sel, agents2⟩ := pr
      exact ⟨_, _, by rw [distribute_task, hres]⟩
  · intro hall
    have hnone : assignFirst (eligible satAff task) swarm.agents = none :=
      (assignFirst_eq_none _ _).mpr hall
    rw [distribute_task, hnone]

/-- C7 witness: with a coder and a reviewer, the task requiring the review
capability is assigned to the reviewer, not the coder. -/
theorem distribute_eligibility_spec_witness :
    eligible trueAff reviewTask coder = false ∧
    eligible trueAff reviewTask reviewer = true ∧
    distribute_task trueAff swarmCR reviewTask = .ok (.assigned asgR, swR) ∧
    asgR.agent_id = reviewer.id := by
  have h := distribute_eligibility_spec trueAff swarmCR reviewTask
  have hconc : distribute_task trueAff swarmCR reviewTask =
      .ok (.assigned asgR, swR) := rfl
  obtain ⟨sel, hmem, helig, hid⟩ := h.2.1 asgR swR hconc
  have hsel : sel = reviewer := by
    rcases List.mem_cons.mp hmem with rfl | hmem2
    · exact absurd helig (by decide)
    · rcases List.mem_cons.mp hmem2 with rfl | hmem3
      · rfl
      · exact absurd hmem3 (List.not_mem_nil sel)
  refine ⟨by decide, by decide, hconc, ?_⟩
  rw [hid, hsel]

/-- C10: whenever distribute_task returns an assignment, the agent list is
changed at exactly one position — the selected agent, whose state becomes
Busy and whose tasks_assigned counter increases by exactly one with every
other field intact — while the agents before and after it, the queue, the
queueing flag and the consensus state are all unchanged. -/
theorem distribute_frame_effect (satAff : Agent → Option Nat → Bool)
    (swarm : Swarm) (task : Task) (asg : TaskAssignment) (sw2 : Swarm)
    (h : distribute_task satAff swarm task = .ok (.assigned asg, sw2)) :
    ∃ pre sel post,
      swarm.agents = pre ++ sel :: post ∧
      sw2.agents = pre ++ markAssigned sel :: post ∧
      asg.agent_id = sel.id ∧
      (markAssigned sel).state = AgentState.busy ∧
      (markAssigned sel).metrics.tasks_assigned
        = sel.metrics.tasks_assigned + 1 ∧
      (markAssigned sel).metrics.tasks_completed
        = sel.metrics.tasks_completed ∧
      (markAssigned sel).id = sel.id ∧
      (markAssigned sel).agent_type = sel.agent_type ∧
      (markAssigned sel).capabilities = sel.capabilities ∧
      sw2.queue = swarm.queue ∧
      sw2.queue_when_unavailable = swarm.queue_when_unavailable ∧
      sw2.consensus = swarm.consensus := by
  unfold distribute_task at h
  cases hres : assignFirst (eligible satAff task) swarm.agents with
  | none =>
    rw [hres] at h
    by_cases hq : swarm.queue_when_unavailable
    · simp [hq] at h
    · simp [hq] at h
  | some pr =>
    obtain ⟨sel, agents2⟩ := pr
    rw [hres] at h
    obtain ⟨hp, pre, post, hl, hpre, hl2⟩ := assignFirst_eq_some _ _ _ _ hres
    simp only [Except.ok.injEq, Prod.mk.injEq,
      DistributeOutcome.assigned.injEq] at h
    obtain ⟨hasg, hsw⟩ := h
    refine ⟨pre, sel, post, hl, ?_, ?_, rfl, rfl, rfl, rfl, rfl, rfl,
            ?_, ?_, ?_⟩
    · rw [← hsw]
      exact hl2
    · rw [← hasg]
    · rw [← hsw]
    · rw [← hsw]
    · rw [← hsw]

/-- C10 witness: assigning the code task in the one-agent swarm mutates the
single agent to Busy with its counter bumped, leaving everything else as it
was. -/
theorem distribute_frame_effect_witness :
    distribute_task trueAff swarmOne codeTask = .ok (.assigned asgO, swO) ∧
    swO.agents = [markAssigned coder] ∧
    (markAssigned coder).state = AgentState.busy ∧
    (markAssigned coder).metrics.tasks_assigned
      = coder.metrics.tasks_assigned + 1 ∧
    swO.queue = swarmOne.queue := by
  have hconc : distribute_task trueAff swarmOne codeTask =
      .ok (.assigned asgO, swO) := rfl
  obtain ⟨pre, sel, post, h1, h2, h3, h4, h5, h6, h7, h8, h9, hq2, hflag,
    hcons⟩ := distribute_frame_effect trueAff swarmOne codeTask asgO swO hconc
  exact ⟨hconc, rfl, by decide, by decide, hq2⟩

/-- Insertion into a sorted run grows the length by one. -/
theorem length_insertByDist (x : Nat × Int) (l : List (Nat × Int)) :
    (insertByDist x l).length = l.length + 1 := by
  induction l with
  | nil => rfl
  | cons y ys ih =>
    by_cases h : x.2 ≤ y.2
    · simp [insertByDist, h]
    · simp [insertByDist, h, ih]

/-- The insertion sort preserves length. -/
theorem length_sortByDist (l : List (Nat × Int)) :
    (sortByDist l).length = l.length := by
  induction l with
  | nil => rfl
  | cons x xs ih => simp [sortByDist, length_insertByDist, ih]

/-- Membership in an insertion step. -/
theorem mem_insertByDist (y x : Nat × Int) (l : List (Nat × Int)) :
    y ∈ insertByDist x l ↔ y = x ∨ y ∈ l := by
  induction l with
  | nil => simp [insertByDist]
  | cons z zs ih =>
    by_cases h : x.2 ≤ z.2
    · simp only [insertByDist, if_pos h, List.mem_cons]
    · simp only [insertByDist, if_neg h, List.mem_cons, ih]
      tauto

/-- Membership is preserved by the insertion sort. -/
theorem mem_sortByDist (y : Nat × Int) (l : List (Nat × Int)) :
    y ∈ sortByDist l ↔ y ∈ l := by
  induction l with
  | nil => simp [sortByDist]
  | cons x xs ih =>
    simp only [sortByDist, mem_insertByDist, List.mem_cons, ih]

/-- Inserting into a distance-sorted run keeps it sorted. -/
theorem insertByDist_pairwise (x : Nat × Int) (l : List (Nat × Int))
    (h : l.Pairwise (fun a b => a.2 ≤ b.2)) :
    (insertByDist x l).Pairwise (fun a b => a.2 ≤ b.2) := by
  induction l with
  | nil => simp [insertByDist]
  | cons y ys ih =>
    rcases List.pairwise_cons.mp h with ⟨hy, hys⟩
    by_cases hle : x.2 ≤ y.2
    · simp only [insertByDist, if_pos hle]
      apply List.Pairwise.cons
      · intro z hz
        rcases List.mem_cons.mp hz with rfl | hz2
        · exact hle
        · exact le_trans hle (hy z hz2)
      · exact h
    · have hgt : y.2 ≤ x.2 := le_of_not_le hle
      simp only [insertByDist, if_neg hle]
      apply List.Pairwise.cons
      · intro z hz
        rcases (mem_insertByDist z x ys).mp hz with rfl | hz2
        · exact hgt
        · exact hy z hz2
      · exact ih hys

/-- The insertion sort produces a run sorted by non-decreasing distance. -/
theorem sortByDist_pairwise (l : List (Nat × Int)) :
    (sortByDist l).Pairwise (fun a b => a.2 ≤ b.2) := by
  induction l with
  | nil => exact List.Pairwise.nil
  | cons x xs ih => exact insertByDist_pairwise x _ ih

/-- The modelled index search returns min(k, size) neighbours. -/
theorem length_hnswSearch (points : List (List FloatVal))
    (q : List FloatVal) (k : Nat) :
    (hnswSearch points q k).length = min k points.length := by
  simp [hnswSearch, List.length_take, length_sortByDist]

/-- The modelled index search is sorted by non-decreasing distance. -/
theorem hnswSearch_pairwise (points : List (List FloatVal))
    (q : List FloatVal) (k : Nat) :
    (hnswSearch points q k).Pairwise (fun a b => a.2 ≤ b.2) :=
  List.Pairwise.sublist (List.take_sublist _ _) (sortByDist_pairwise _)

/-- Every neighbour the modelled index search returns carries an in-range
index position. -/
theorem hnswSearch_idx_lt (points : List (List FloatVal))
    (q : List FloatVal) (k : Nat) (p : Nat × Int)
    (hp : p ∈ hnswSearch points q k) : p.1 < points.length := by
  have h1 := List.mem_of_mem_take hp
  have h2 := (mem_sortByDist _ _).mp h1
  obtain ⟨i, hi, heq⟩ := List.mem_map.mp h2
  rw [← heq]
  exact List.mem_range.mp hi

/-- Unfolding equation for the filter-free search result construction. -/
theorem resultOf_none_eq (db : VectorDB) (p : Nat × Int) :
    resultOf db none p =
      (match alookup db.idx_to_id p.1 with
       | none => none
       | some id =>
         match alookup db.storage id with
         | none => none
         | some entry =>
             some { id := id, score := 1 - p.2, entry := entry }) := by
  unfold resultOf
  cases alookup db.idx_to_id p.1 with
  | none => rfl
  | some id =>
    cases alookup db.storage id with
    | none => rfl
    | some entry => rfl

/-- On a well-formed database an in-range neighbour always produces a search
result. -/
theorem resultOf_isSome (db : VectorDB) (p : Nat × Int)
    (hwf : wellFormedIdx db = true) (hlt : p.1 < db.points.length) :
    ∃ r, resultOf db none p = some r := by
  have hp : ((alookup db.idx_to_id p.1).bind (alookup db.storage)).isSome
      = true :=
    List.all_eq_true.mp hwf p.1 (List.mem_range.mpr hlt)
  rw [resultOf_none_eq]
  cases hid : alookup db.idx_to_id p.1 with
  | none =>
    rw [hid] at hp
    exact absurd hp (by simp)
  | some id =>
    rw [hid] at hp
    have hp2 : (alookup db.storage id).isSome = true := hp
    show ∃ r, (match alookup db.storage id with
      | none => (none : Option SearchResult)
      | some entry =>
          some { id := id, score := 1 - p.2, entry := entry }) = some r
    cases hst : alookup db.storage id with
    | none =>
      rw [hst] at hp2
      exact absurd hp2 (by simp)
    | some entry => exact ⟨_, rfl⟩

/-- A produced search result scores 1 minus its neighbour's distance. -/
theorem resultOf_score (db : VectorDB) (p : Nat × Int) (r : SearchResult)
    (h : resultOf db none p = some r) : r.score = 1 - p.2 := by
  rw [resultOf_none_eq] at h
  cases hid : alookup db.idx_to_id p.1 with
  | none =>
    rw [hid] at h
    exact Option.noConfusion h
  | some id =>
    rw [hid] at h
    have h2 : (match alookup db.storage id with
      | none => (none : Option SearchResult)
      | some entry =>
          some { id := id, score := 1 - p.2, entry := entry }) = some r := h
    cases hst : alookup db.storage id with
    | none =>
      rw [hst] at h2
      exact Option.noConfusion h2
    | some entry =>
      rw [hst] at h2
      have h3 : some { id := id, score := 1 - p.2, entry := entry }
          = some r := h2
      simp only [Option.some.injEq] at h3
      rw [← h3]

/-- A filterMap whose function succeeds on every element keeps the length. -/
theorem length_filterMap_all_some {α β : Type} (f : α → Option β)
    (l : List α) (h : ∀ x ∈ l, (f x).isSome = true) :
    (l.filterMap f).length = l.length := by
  induction l with
  | nil => rfl
  | cons x xs ih =>
    have hx := h x (List.mem_cons_self x xs)
    cases hf : f x with
    | none =>
      rw [hf] at hx
      exact absurd hx (by simp)
    | some b =>
      rw [List.filterMap_cons, hf]
      simp [ih (fun y hy => h y (List.mem_cons_of_mem x hy))]

/-- Results built from distance-sorted neighbours are sorted by
non-increasing score. -/
theorem pairwise_scores (db : VectorDB) (ns : List (Nat × Int))
    (hs : ns.Pairwise (fun a b => a.2 ≤ b.2)) :
    (ns.filterMap (resultOf db none)).Pairwise
      (fun r s => s.score ≤ r.score) := by
  induction ns with
  | nil => simp
  | cons hd tl ih =>
    rcases List.pairwise_cons.mp hs with ⟨hhd, htl⟩
    rw [List.filterMap_cons]
    cases hf : resultOf db none hd with
    | none => exact ih htl
    | some r =>
      apply List.Pairwise.cons
      · intro s hs2
        obtain ⟨p, hp, hfp⟩ := List.mem_filterMap.mp hs2
        have h1 := resultOf_score db hd r hf
        have h2 := resultOf_score db p s hfp
        have h3 := hhd p hp
        omega
      · exact ih htl

/-- C4: on a well-formed database, a filter-free search with a query of the
right dimension succeeds with exactly min(k, size) results, in non-increasing
score order, and in particular returns the empty list (not an error) on an
empty index. -/
theorem search_returns_min_k_sorted (db : VectorDB) (q : SearchQuery)
    (hwf : wellFormedIdx db = true)
    (hdim : q.vector.length = db.config.dimensions)
    (hfil : q.filter = none) :
    ∃ rs, search db q = .ok rs ∧
      rs.length = min (q.k.getD 10) db.points.length ∧
      rs.Pairwise (fun a b => b.score ≤ a.score) ∧
      (db.points = [] → rs = []) := by
  have hcond : ¬(q.vector.length ≠ db.config.dimensions) := by simp [hdim]
  refine ⟨(hnswSearch db.points q.vector (q.k.getD 10)).filterMap
            (resultOf db q.filter), ?_, ?_, ?_, ?_⟩
  · unfold search
    rw [if_neg hcond]
  · rw [hfil, length_filterMap_all_some]
    · exact length_hnswSearch db.points q.vector (q.k.getD 10)
    · intro p hp
      obtain ⟨r, hr⟩ :=
        resultOf_isSome db p hwf (hnswSearch_idx_lt _ _ _ p hp)
      simp [hr]
  · rw [hfil]
    exact pairwise_scores db _ (hnswSearch_pairwise db.points q.vector _)
  · intro hempty
    rw [hfil, hempty]
    simp [hnswSearch, sortByDist]

/-- C4 witness: searching the two-point database with k = 5 returns both
stored vectors, the identical one first with the higher score. -/
theorem search_returns_min_k_sorted_witness :
    wellFormedIdx dbW = true ∧
    qW.vector.length = dbW.config.dimensions ∧
    search dbW qW =
      .ok [{ id := 0, score := 1, entry := entryA },
           { id := 1, score := -1, entry := entryB }] := by
  have h := search_returns_min_k_sorted dbW qW (by decide) rfl rfl
  exact ⟨by decide, rfl, rfl⟩

end Flow
